import Mathlib

/-!
# CoopStation-01 — verification of the opportunity-listing core

Shallow embedding of the parts of `accounts/views.py`, `accounts/forms.py`
and `accounts/models.py` that the frozen claims are about: query-parameter
parsing, the category and location filters with their facet counts, the
toggle/clear URL builders, the pagination window, the signup save path and
the `Submission` write path.  Machine integers are modelled as `Int`/`Nat`
(Python integers are unbounded, so no wrap-around is involved).
-/

namespace CoopStation

/-! ## Python `str`/`int` primitives

`views.py` line 101 calls `int(x)` on raw query values and line 132 renders
ids back with `str(i)`.  We embed decimal printing via `Nat.digits` and
parsing as a left fold over the characters, so that printing followed by
parsing is provable as a round trip. -/

/-- Inverse of `Nat.digitChar` on decimal digits: maps `'0'`..`'9'` to their
value and anything else to `none`. -/
def charDigit? (ch : Char) : Option Nat :=
  if 48 ≤ ch.toNat ∧ ch.toNat ≤ 57 then some (ch.toNat - 48) else none

/-- Parse a nonempty all-digit character list as a decimal number (most
significant digit first); any other list yields `none`.  Models the core of
Python `int()` on an already-trimmed, unsigned literal. -/
def parseNatDigits (cs : List Char) : Option Nat :=
  if cs = [] then none
  else cs.foldl (fun acc ch => acc.bind fun a => (charDigit? ch).map fun d => a * 10 + d)
    (some 0)

/-- Strip leading and trailing whitespace, as Python `int()` does before
reading the literal. -/
def pyTrim (cs : List Char) : List Char :=
  ((cs.dropWhile Char.isWhitespace).reverse.dropWhile Char.isWhitespace).reverse

/-- Sign handling of Python `int()` on an already-trimmed character list. -/
def pyIntAux : List Char → Option Int
  | [] => none
  | c :: rest =>
    if c = '-' then (parseNatDigits rest).map fun n : Nat => -(n : Int)
    else if c = '+' then (parseNatDigits rest).map fun n : Nat => (n : Int)
    else (parseNatDigits (c :: rest)).map fun n : Nat => (n : Int)

/-- Python `int(s)` for a string argument (`views.py` line 101): strips
whitespace, accepts an optional sign, then requires a nonempty run of
decimal digits.  (Python additionally accepts underscore digit separators
and non-ASCII digits; no claim depends on such inputs.) -/
def pyInt (s : String) : Option Int :=
  pyIntAux (pyTrim s.toList)

/-- Little-endian decimal digits, with explicit fuel so that the
definition is structurally recursive (agrees with `Nat.digits 10` — see
`natDigits_eq_digits`). -/
def digitsFuel : Nat → Nat → List Nat
  | 0, _ => []
  | fuel + 1, n => if n = 0 then [] else n % 10 :: digitsFuel fuel (n / 10)

/-- Little-endian decimal digits of `n`. -/
def natDigits (n : Nat) : List Nat :=
  digitsFuel n n

/-- The decimal character representation of a natural number, most
significant digit first (`str(n)` for `n ≥ 0`). -/
def natChars (n : Nat) : List Char :=
  if n = 0 then ['0'] else ((natDigits n).map Nat.digitChar).reverse

/-- Python `str(i)` for an integer (`views.py` line 132). -/
def pyStr (i : Int) : String :=
  if i < 0 then String.mk ('-' :: natChars i.natAbs) else String.mk (natChars i.natAbs)

/-- Python `str.strip()`: remove leading and trailing whitespace. -/
def pyStrip (s : String) : String :=
  String.mk (pyTrim s.toList)

/-- Python `str.lower()`, the normalisation Django `iexact` applies to both
sides (character-wise lowering; all catalog data is ASCII). -/
def lowerStr (s : String) : String :=
  String.mk (s.toList.map Char.toLower)

/-- Django `startswith` lookup: `pre` is a prefix of `s`. -/
def pyStartsWith (s pre : String) : Bool :=
  pre.toList.isPrefixOf s.toList

/-- Split a character list at the first comma, if any — the character-level
core of Python `split(",", 1)`. -/
def breakAtComma : List Char → List Char × Option (List Char)
  | [] => ([], none)
  | c :: rest =>
    if c = ',' then ([], some rest)
    else
      let p := breakAtComma rest
      (c :: p.1, p.2)

/-! ## Query parameters

`request.GET` is a Django `QueryDict`: an ordered multi-valued mapping.  We
model it as the flat list of its `(key, value)` pairs.  `pop` removes every
value of a key; `setlist` replaces a key's values (Django keeps an existing
key at its old position in the dict order, we move it to the end — the
key–values multiset is the same, and no claim depends on pair order). -/

abbrev Params := List (String × String)

/-- `QueryDict.getlist(k)`: all values stored under `k`, in order. -/
def getlist (k : String) (P : Params) : List String :=
  (P.filter fun kv => kv.1 == k).map fun kv => kv.2

/-- `QueryDict.get(k)`: Django returns the *last* value of the key, or
`None`. -/
def getParam (k : String) (P : Params) : Option String :=
  (getlist k P).getLast?

/-- `QueryDict.pop(k, None)`: drop every value of `k`. -/
def popKey (k : String) (P : Params) : Params :=
  P.filter fun kv => kv.1 != k

/-- `QueryDict.setlist(k, vs)`: replace the values of `k` by `vs`. -/
def setlist (k : String) (vs : List String) (P : Params) : Params :=
  popKey k P ++ vs.map fun v => (k, v)

/-- `QueryDict.urlencode()` / `urllib.parse.urlencode`: `k=v` pairs joined
with `&`.  Percent-encoding is omitted: every key and value appearing in the
claims is URL-safe. -/
def urlencodeParams (P : Params) : String :=
  String.intercalate "&" (P.map fun kv => kv.1 ++ "=" ++ kv.2)

/-! ## Data model -/

/-- Projection of `accounts/models.py` `Opportunity` (lines 160–220) onto
the fields the `opportunities` view reads: primary key, the required
`category` foreign key, the optional free-text `location` (stored as
`"Region,City"`), and the creation timestamp used for ordering (modelled as
a natural number; only its order matters). -/
structure Opportunity where
  id : Int
  categoryId : Int
  location : Option String
  createdAt : Nat
deriving DecidableEq

/-- `REGIONS_AND_CITIES` (views.py lines 168–182), in source order. -/
def REGIONS_AND_CITIES : List (String × List String) :=
  [("Riyadh", ["Riyadh", "Al Kharj", "Al Majma’ah", "Al Quway’iyah"]),
   ("Makkah", ["Jeddah", "Makkah", "Taif", "Rabigh"]),
   ("Eastern Province", ["Dammam", "Khobar", "Dhahran", "Jubail"]),
   ("Madinah", ["Madinah", "Yanbu", "Al Ula", "Badr"]),
   ("Qassim", ["Buraidah", "Unaizah", "Al Rass", "Bukayriyah"]),
   ("Asir", ["Abha", "Khamis Mushait", "Mahayel", "Bisha"]),
   ("Tabuk", ["Tabuk", "Duba", "Umluj", "Tayma"]),
   ("Hail", ["Hail", "Baqaa", "Ash Shinan", "Ghazalah"]),
   ("Jazan", ["Jazan", "Sabya", "Abu Arish", "Al Ardah"]),
   ("Najran", ["Najran", "Sharurah", "Hubuna"]),
   ("Al Bahah", ["Al Bahah", "Baljurashi", "Al Mandaq"]),
   ("Al Jawf", ["Sakaka", "Dumat Al Jandal", "Qurayyat"]),
   ("Northern Borders", ["Arar", "Rafha", "Turaif"])]

/-- Dictionary lookup `REGIONS_AND_CITIES[r]`. -/
def regionCities (r : String) : Option (List String) :=
  (REGIONS_AND_CITIES.find? fun p => p.1 == r).map fun p => p.2

/-- `r in REGIONS_AND_CITIES`. -/
def regionKnown (r : String) : Bool :=
  (regionCities r).isSome

/-! ## The `opportunities` view (views.py lines 86–310) -/

/-- Lines 97–104: collect the raw `category` values, keep those `int()`
parses, then canonicalise with `sorted(set(...))`. -/
def parseSelectedCats (P : Params) : List Int :=
  List.insertionSort (· ≤ ·) ((getlist "category" P).filterMap pyInt).dedup

/-- Lines 112–113: restrict to the selected categories; an empty selection
applies no filter. -/
def applyCategoryFilter (sel : List Int) (opps : List Opportunity) : List Opportunity :=
  if sel = [] then opps else opps.filter fun o => decide (o.categoryId ∈ sel)

/-- Lines 108–120: the per-category counts are taken from
`qs_for_major_counts`, the queryset captured at line 109 — before the
category filter (line 113) *and* before the location filter (lines
198–206).  `values("category_id").annotate(Count("id"))` grouped over a
list of rows is the number of rows carrying each category id (the view
reads the dict through `.get(c.id, 0)`, so the map-with-default-0 and this
total function agree). -/
def majorCounts (opps : List Opportunity) (cid : Int) : Nat :=
  (opps.filter fun o => o.categoryId == cid).length

/-- Lines 126–130: remove `cat_id` from the current selection if present,
add it otherwise.  The selection is a set; it reaches this code as the
canonical (sorted, duplicate-free) list `selected_category_ids`, so `erase`
and `cons` realise set removal and insertion. -/
def toggleSel (current : List Int) (catId : Int) : List Int :=
  if catId ∈ current then current.erase catId else catId :: current

/-- Lines 122–133 (`build_toggle_major_url`), up to serialisation: drop
`page`, toggle `cat_id` in the selected set, and store the new selection as
sorted decimal strings under `category`. -/
def toggleParams (P : Params) (catId : Int) : Params :=
  let params := popKey "page" P
  let toggled := toggleSel (parseSelectedCats P) catId
  setlist "category" ((List.insertionSort (· ≤ ·) toggled).map pyStr) params

/-- Lines 122–134: the full toggle URL (`reverse('opportunities')` is
`/opportunities/` per `accounts/urls.py` line 12). -/
def build_toggle_major_url (P : Params) (catId : Int) : String :=
  let qs_str := urlencodeParams (toggleParams P catId)
  "/opportunities/" ++ (if qs_str = "" then "" else "?" ++ qs_str)

/-- Lines 136–141: clear-majors URL keeps everything but `page` and
`category`. -/
def build_clear_majors_url (P : Params) : String :=
  let qs_str := urlencodeParams (popKey "category" (popKey "page" P))
  "/opportunities/" ++ (if qs_str = "" then "" else "?" ++ qs_str)

/-- Lines 267–272: clear-location URL keeps everything but `page`,
`region` and `city`. -/
def build_clear_location_url (P : Params) : String :=
  let qs_str := urlencodeParams (popKey "city" (popKey "region" (popKey "page" P)))
  "/opportunities/" ++ (if qs_str = "" then "" else "?" ++ qs_str)

/-- Lines 255–258: the querystring appended to pagination links — the raw
request parameters minus `page`. -/
def extraQsOf (P : Params) : String :=
  let qs_str := urlencodeParams (popKey "page" P)
  if qs_str = "" then "" else "&" ++ qs_str

/-- Lines 184–185: `(request.GET.get(k) or "").strip() or None`. -/
def stripOrNone (v : Option String) : Option String :=
  match v with
  | none => none
  | some s => let t := pyStrip s; if t = "" then none else some t

/-- Lines 188–192: validate the selections — an unknown region clears both
region and city; a city outside the selected region's list clears the
city. -/
def validateLoc (r c : Option String) : Option String × Option String :=
  let rc : Option String × Option String :=
    match r with
    | some rv => if regionKnown rv then (some rv, c) else (none, none)
    | none => (none, c)
  match rc with
  | (some rv, some cv) =>
    if ((regionCities rv).getD []).contains cv then (some rv, some cv) else (some rv, none)
  | x => x

/-- Django `iexact` string comparison, as used at lines 201–202:
case-insensitive exact match. -/
def iexact (a b : String) : Bool :=
  lowerStr a == lowerStr b

/-- Lines 198–206: region+city selected — exact (case-insensitive) match of
`location` against both comma variants; region only — prefix match against
both variants; otherwise no filter.  A SQL comparison against a NULL
`location` is false. -/
def applyLocationFilter (region city : Option String) (opps : List Opportunity) :
    List Opportunity :=
  match region, city with
  | some r, some c =>
    opps.filter fun o =>
      match o.location with
      | some l => iexact l (r ++ "," ++ c) || iexact l (r ++ ", " ++ c)
      | none => false
  | some r, none =>
    opps.filter fun o =>
      match o.location with
      | some l => pyStartsWith l (r ++ ",") || pyStartsWith l (r ++ ", ")
      | none => false
  | none, _ => opps

/-- Python `loc.split(",", 1)` followed by `.strip()` on each part
(line 213). -/
def splitLoc (l : String) : List String :=
  match breakAtComma l.toList with
  | (a, none) => [pyStrip (String.mk a)]
  | (a, some b) => [pyStrip (String.mk a), pyStrip (String.mk b)]

/-- Lines 209–218: the (region, city) facet counts, computed from
`base_for_counts` (the queryset captured at line 195: category filter
applied, location filter not) by parsing each stored `location`; a falsy
(`None` or empty) location, an unsplittable one, or one outside the catalog
is skipped. -/
def locCounts (opps : List Opportunity) (r c : String) : Nat :=
  (opps.filter fun o =>
    match o.location with
    | none => false
    | some l =>
      if l = "" then false
      else
        match splitLoc l with
        | [rv, cv] =>
          regionKnown rv && ((regionCities rv).getD []).contains cv && rv == r && cv == c
        | _ => false).length

/-- `django.core.paginator.Paginator.num_pages` for the paginator built at
line 229 (`per_page = 5`, `orphans = 0`, `allow_empty_first_page = True`):
`ceil(max(1, count) / 5)`. -/
def numPages (count : Nat) : Nat :=
  (max 1 count + 4) / 5

/-- Line 230 (`request.GET.get("page") or 1`) combined with Django's
`Paginator.get_page`/`validate_number`: a missing or empty parameter means
page 1; a value `int()` cannot parse raises `PageNotAnInteger`, caught as
page 1; a parsed value below 1 or above `num_pages` raises `EmptyPage`,
caught as `num_pages`.  (`validate_number`'s `allow_empty_first_page`
escape for `number == 1 > num_pages` is unreachable since
`num_pages ≥ 1`.) -/
def pageFromInt (v : Option Int) (np : Nat) : Nat :=
  match v with
  | none => 1
  | some n => if n < 1 then np else if (np : Int) < n then np else n.toNat

def pageNumberOfStr (s : String) (np : Nat) : Nat :=
  if s = "" then 1 else pageFromInt (pyInt s) np

def pageNumberOf (raw : Option String) (np : Nat) : Nat :=
  match raw with
  | none => 1
  | some s => pageNumberOfStr s np

/-- `Page.object_list` for page `n`: the slice `qs[(n-1)*5 : n*5]`. -/
def pageSlice (opps : List Opportunity) (n : Nat) : List Opportunity :=
  (opps.drop ((n - 1) * 5)).take 5

/-- Lines 238–241: the window of page numbers kept in the index — the first
page, the last page, and every page within `window = 2` of the current one.
(Python evaluates `current - 2 ≤ p` over ℤ; for `p ≥ 1` truncated ℕ
subtraction gives the same truth value.) -/
def pagesList (current last : Nat) : List Nat :=
  (List.range' 1 last).filter fun p =>
    p == 1 || p == last || (current - 2 ≤ p && p ≤ current + 2)

/-- Lines 243–249: walk the kept pages with the previous page in hand,
inserting a single `None` ellipsis marker whenever the jump exceeds 1. -/
def buildPageRange : Option Nat → List Nat → List (Option Nat)
  | _, [] => []
  | prev, p :: rest =>
    (match prev with
     | some q => if p - q > 1 then [none, some p] else [some p]
     | none => [some p]) ++ buildPageRange (some p) rest

/-- The compressed page-index list (`page_range` in the template context). -/
def pageRange (current last : Nat) : List (Option Nat) :=
  buildPageRange none (pagesList current last)

/-- Structural well-formedness of a compressed page-index list: it is a
nonempty alternation of page entries and single `none` ellipsis markers in
which no marker opens or closes the list, two adjacent page entries are
consecutive integers, and a marker sits between two page entries exactly
when they are more than 1 apart — i.e. one marker per gap and nothing
else. -/
def gapsOk : List (Option Nat) → Bool
  | [] => false
  | [some _] => true
  | some a :: some b :: rest => b == a + 1 && gapsOk (some b :: rest)
  | some a :: none :: some b :: rest => decide (a + 1 < b) && gapsOk (some b :: rest)
  | _ => false

/-- Line 92 `order_by("-created_at", "-id")`: newest first, ties broken by
descending id (a total order on distinct rows); the claims below use only
that the result is a permutation of the input. -/
def orderOpps (opps : List Opportunity) : List Opportunity :=
  List.insertionSort
    (fun a b => b.createdAt < a.createdAt ∨ (b.createdAt = a.createdAt ∧ b.id ≤ a.id)) opps

/-- The template context assembled by the `opportunities` view; one field
per context entry the claims mention. -/
structure OppContext where
  selectedCategoryIds : List Int
  categoryCount : Int → Nat
  filteredOpps : List Opportunity
  locationCount : String → String → Nat
  selectedRegion : Option String
  selectedCity : Option String
  pageObjNumber : Nat
  pageItems : List Opportunity
  pageRangeList : List (Option Nat)
  extraQs : String
  toggleUrl : Int → String
  clearMajorsUrl : String
  clearLocationUrl : String

/-- The `opportunities` view (views.py lines 86–310) over a stored list of
opportunities and the request's GET parameters, assembled in source
order. -/
def opportunities (store : List Opportunity) (P : Params) : OppContext :=
  let qs0 := orderOpps store
  let selected := parseSelectedCats P
  let qs_for_major_counts := qs0
  let qs1 := applyCategoryFilter selected qs0
  let rcIn := stripOrNone (getParam "region" P)
  let ccIn := stripOrNone (getParam "city" P)
  let rc := validateLoc rcIn ccIn
  let base_for_counts := qs1
  let qs2 := applyLocationFilter rc.1 rc.2 qs1
  let np := numPages qs2.length
  let pn := pageNumberOf (getParam "page" P) np
  { selectedCategoryIds := selected
    categoryCount := majorCounts qs_for_major_counts
    filteredOpps := qs2
    locationCount := locCounts base_for_counts
    selectedRegion := rc.1
    selectedCity := rc.2
    pageObjNumber := pn
    pageItems := pageSlice qs2 pn
    pageRangeList := pageRange pn np
    extraQs := extraQsOf P
    toggleUrl := build_toggle_major_url P
    clearMajorsUrl := build_clear_majors_url P
    clearLocationUrl := build_clear_location_url P }

/-! ## Signup save path (`accounts/forms.py` lines 40–50)

The credential store and the `Student` profile table, with the two INSERTs
of `SignupForm.save` run in sequence.  Neither `forms.py` nor `views.py`
opens a transaction (`transaction.atomic` appears only in the seeding
scripts under `management/commands/`), so an exception raised by the second
INSERT propagates while the first INSERT stays committed.  Whether the
database accepts each INSERT is abstracted by a boolean oracle. -/

structure User where
  username : String
  email : String
  password : String
deriving DecidableEq

structure Student where
  username : String
  full_name : String
deriving DecidableEq

structure DB where
  users : List User
  students : List Student
deriving DecidableEq

/-- The validated `cleaned_data` of a signup submission. -/
structure SignupForm where
  full_name : String
  username : String
  email : String
  password1 : String
deriving DecidableEq

/-- `SignupForm.save` (forms.py lines 40–50): `User.objects.create_user`
followed by `Student.objects.create`, with no enclosing transaction.  The
result pairs the error raised (if any) with the database state that
persists afterwards. -/
def SignupForm.save (form : SignupForm) (db : DB) (userOk studentOk : Bool) :
    Option String × DB :=
  if !userOk then (some "create_user failed", db)
  else
    let db1 : DB :=
      { users := db.users ++
          [{ username := form.username, email := form.email, password := form.password1 }]
        students := db.students }
    if !studentOk then (some "Student.objects.create failed", db1)
    else
      (none,
        { users := db1.users
          students := db1.students ++
            [{ username := form.username, full_name := form.full_name }] })

/-! ## Submission write path (`accounts/models.py` lines 303–350) -/

/-- `SubmitterType` choices (models.py lines 28–31). -/
inductive SubmitterType where
  | student
  | admin
  | ai
deriving DecidableEq

/-- Projection of the `Submission` model onto the fields its `clean` and
`save` methods read and write. -/
structure Submission where
  opportunityId : Int
  submitted_by_student_id : Option Int
  submitted_by_admin_id : Option Int
  submitted_by_type : Option SubmitterType
deriving DecidableEq

/-- `Submission.clean` (models.py lines 332–342): reject both submitter
references set, or neither. -/
def Submission.clean (s : Submission) : Except String Unit :=
  if s.submitted_by_student_id.isSome && s.submitted_by_admin_id.isSome then
    Except.error "Submission cannot be submitted by both student and admin."
  else if !s.submitted_by_student_id.isSome && !s.submitted_by_admin_id.isSome then
    Except.error "Submission must have a submitter (student or admin)."
  else Except.ok ()

/-- The field updates of `Submission.save` (models.py lines 344–350):
derive `submitted_by_type` when exactly one reference is set, leave it
unchanged otherwise. -/
def Submission.saveDerive (s : Submission) : Submission :=
  if s.submitted_by_student_id.isSome && !s.submitted_by_admin_id.isSome then
    { s with submitted_by_type := some SubmitterType.student }
  else if s.submitted_by_admin_id.isSome && !s.submitted_by_student_id.isSome then
    { s with submitted_by_type := some SubmitterType.admin }
  else s

/-- A direct write (`Submission.objects.create(...)` or `save()`): Django's
`Model.save` does not invoke `clean`, so after the `submitted_by_type`
derivation the row is written unconditionally. -/
def Submission.create (db : List Submission) (s : Submission) : List Submission :=
  db ++ [s.saveDerive]

/-- The validated write path (`full_clean()` before `save()`, as a
`ModelForm` or the admin would run): the row is written only when `clean`
passes. -/
def Submission.validatedCreate (db : List Submission) (s : Submission) :
    Except String (List Submission) :=
  match s.clean with
  | Except.error e => Except.error e
  | Except.ok _ => Except.ok (Submission.create db s)

lemma digitsFuel_eq_digits (fuel : Nat) : ∀ n : Nat, n ≤ fuel → digitsFuel fuel n = Nat.digits 10 n := by
  induction fuel with
  | zero =>
    intro n hn
    interval_cases n
    simp [Nat.digits_zero]
    rfl
  | succ fuel ih =>
    intro n hn
    unfold digitsFuel
    by_cases h0 : n = 0
    · simp [h0]
    · rw [if_neg h0]
      rw [ih (n / 10) (by omega)]
      rw [Nat.digits_def' (by norm_num) (Nat.pos_of_ne_zero h0)]

lemma natDigits_eq_digits (n : Nat) : natDigits n = Nat.digits 10 n :=
  digitsFuel_eq_digits n n le_rfl

lemma natChars_eq (n : Nat) :
    natChars n = if n = 0 then ['0'] else ((Nat.digits 10 n).map Nat.digitChar).reverse := by
  unfold natChars
  rw [natDigits_eq_digits]

lemma charDigit?_digitChar {d : Nat} (hd : d < 10) :
    charDigit? (Nat.digitChar d) = some d := by
  interval_cases d <;> decide

lemma digitChar_not_whitespace {d : Nat} (hd : d < 10) :
    (Nat.digitChar d).isWhitespace = false := by
  interval_cases d <;> decide

lemma digitChar_ne_dash {d : Nat} (hd : d < 10) : Nat.digitChar d ≠ '-' := by
  interval_cases d <;> decide

lemma digitChar_ne_plus {d : Nat} (hd : d < 10) : Nat.digitChar d ≠ '+' := by
  interval_cases d <;> decide

lemma dropWhile_eq_self_of_all {p : Char → Bool} {cs : List Char}
    (h : ∀ c ∈ cs, p c = false) : cs.dropWhile p = cs := by
  cases cs with
  | nil => rfl
  | cons a l =>
    have ha : p a = false := h a (List.mem_cons_self a l)
    simp [List.dropWhile_cons, ha]

lemma pyTrim_eq_self_of_all {cs : List Char}
    (h : ∀ c ∈ cs, c.isWhitespace = false) : pyTrim cs = cs := by
  unfold pyTrim
  rw [dropWhile_eq_self_of_all h]
  rw [dropWhile_eq_self_of_all (fun c hc => h c (List.mem_reverse.mp hc))]
  exact List.reverse_reverse cs

/-- Every character printed for a natural number is a decimal digit's
character. -/
lemma mem_natChars {c : Char} {n : Nat} (hc : c ∈ natChars n) :
    ∃ d, d < 10 ∧ c = Nat.digitChar d := by
  rw [natChars_eq] at hc
  by_cases h0 : n = 0
  · refine ⟨0, by norm_num, ?_⟩
    simp [h0] at hc
    simp [hc]
    rfl
  · rw [if_neg h0] at hc
    rw [List.mem_reverse] at hc
    obtain ⟨d, hd, rfl⟩ := List.mem_map.mp hc
    exact ⟨d, Nat.digits_lt_base (by norm_num) hd, rfl⟩

lemma natChars_not_whitespace {c : Char} {n : Nat} (hc : c ∈ natChars n) :
    c.isWhitespace = false := by
  obtain ⟨d, hd, rfl⟩ := mem_natChars hc
  exact digitChar_not_whitespace hd

/-- Folding the parse step over a digit list (most significant first) with
accumulator `a` yields `a` shifted past the digits plus their value. -/
lemma foldl_parse_digits (L : List Nat) (hL : ∀ d ∈ L, d < 10) (a : Nat) :
    ((L.map Nat.digitChar).reverse).foldl
      (fun acc ch => acc.bind fun x => (charDigit? ch).map fun d => x * 10 + d) (some a)
      = some (a * 10 ^ L.length + Nat.ofDigits 10 L) := by
  induction L generalizing a with
  | nil => simp
  | cons d L ih =>
    have hd : d < 10 := hL d (List.mem_cons_self d L)
    have hL' : ∀ x ∈ L, x < 10 := fun x hx => hL x (List.mem_cons_of_mem d hx)
    simp only [List.map_cons, List.reverse_cons, List.foldl_append, List.foldl_cons,
      List.foldl_nil, ih hL' a]
    rw [Option.some_bind, charDigit?_digitChar hd, Option.map_some']
    congr 1
    rw [Nat.ofDigits_cons]
    simp only [List.length_cons, pow_succ]
    ring

lemma natChars_ne_nil (n : Nat) : natChars n ≠ [] := by
  rw [natChars_eq]
  by_cases h0 : n = 0
  · simp [h0]
  · rw [if_neg h0]
    simp only [ne_eq, List.reverse_eq_nil_iff, List.map_eq_nil_iff]
    exact Nat.digits_ne_nil_iff_ne_zero.mpr h0

/-- Parsing the printed digits of `n` recovers `n`. -/
lemma parseNatDigits_natChars (n : Nat) : parseNatDigits (natChars n) = some n := by
  unfold parseNatDigits
  rw [if_neg (natChars_ne_nil n)]
  by_cases h0 : n = 0
  · subst h0; decide
  · rw [natChars_eq]
    rw [if_neg h0]
    rw [foldl_parse_digits _ (fun d hd => Nat.digits_lt_base (by norm_num) hd) 0]
    rw [Nat.ofDigits_digits]
    simp

/-- Round trip: Python `int(str(i)) = i`. -/
theorem pyInt_pyStr (i : Int) : pyInt (pyStr i) = some i := by
  unfold pyStr pyInt
  by_cases hneg : i < 0
  · rw [if_pos hneg]
    have htoList : (String.mk ('-' :: natChars i.natAbs)).toList = '-' :: natChars i.natAbs := rfl
    rw [htoList]
    have hall : ∀ c ∈ '-' :: natChars i.natAbs, c.isWhitespace = false := by
      intro c hc
      rcases List.mem_cons.mp hc with h | h
      · subst h; decide
      · exact natChars_not_whitespace h
    rw [pyTrim_eq_self_of_all hall]
    simp only [pyIntAux, if_pos rfl, if_true]
    rw [parseNatDigits_natChars, Option.map_some']
    simp only [Option.some.injEq]
    omega
  · rw [if_neg hneg]
    have htoList : (String.mk (natChars i.natAbs)).toList = natChars i.natAbs := rfl
    rw [htoList]
    rw [pyTrim_eq_self_of_all (fun c hc => natChars_not_whitespace hc)]
    obtain ⟨c, rest, hcons⟩ : ∃ c rest, natChars i.natAbs = c :: rest := by
      cases h : natChars i.natAbs with
      | nil => exact absurd h (natChars_ne_nil _)
      | cons c rest => exact ⟨c, rest, rfl⟩
    rw [hcons]
    obtain ⟨d, hd, rfl⟩ := mem_natChars (hcons ▸ List.mem_cons_self c rest)
    simp only [pyIntAux]
    rw [if_neg (digitChar_ne_dash hd), if_neg (digitChar_ne_plus hd)]
    rw [← hcons, parseNatDigits_natChars, Option.map_some']
    simp only [Option.some.injEq]
    omega

lemma pageFromInt_some (n : Int) (np : Nat) :
    pageFromInt (some n) np =
      if n < 1 then np else if (np : Int) < n then np else n.toNat := rfl

/-! ## Query-dict lemmas -/

lemma getlist_append (k : String) (P Q : Params) :
    getlist k (P ++ Q) = getlist k P ++ getlist k Q := by
  simp [getlist, List.filter_append]

lemma getlist_popKey_ne {k k2 : String} (P : Params) (h : k ≠ k2) :
    getlist k (popKey k2 P) = getlist k P := by
  unfold getlist popKey
  rw [List.filter_filter]
  congr 1
  apply List.filter_congr
  intro kv _
  by_cases hk : kv.1 = k
  · have hb : (kv.1 != k2) = true := by
      simp only [bne_iff_ne, ne_eq, hk]
      exact h
    simp [hk, hb]
    exact h
  · simp [hk]

lemma getlist_popKey_self (k : String) (P : Params) :
    getlist k (popKey k P) = [] := by
  unfold getlist popKey
  rw [List.filter_filter]
  have hnone : List.filter (fun a => (a.1 == k) && (a.1 != k)) P = [] := by
    rw [List.filter_eq_nil_iff]
    intro kv _
    by_cases hk : kv.1 = k <;> simp [hk]
  rw [hnone]
  rfl

lemma getlist_map_self (k : String) (vs : List String) :
    getlist k (vs.map fun v => (k, v)) = vs := by
  induction vs with
  | nil => rfl
  | cons v rest ih => simp_all [getlist, List.filter_cons]

lemma getlist_map_ne {k k2 : String} (h : k ≠ k2) (vs : List String) :
    getlist k (vs.map fun v => (k2, v)) = [] := by
  induction vs with
  | nil => rfl
  | cons v rest ih =>
    have : (k2 == k) = false := by
      simp only [beq_eq_false_iff_ne, ne_eq]
      exact fun hh => h hh.symm
    simp_all [getlist, List.filter_cons]

lemma getlist_setlist_self (k : String) (vs : List String) (P : Params) :
    getlist k (setlist k vs P) = vs := by
  unfold setlist
  rw [getlist_append, getlist_popKey_self, getlist_map_self]
  rfl

lemma getlist_setlist_ne {k k2 : String} (h : k ≠ k2) (vs : List String) (P : Params) :
    getlist k (setlist k2 vs P) = getlist k (popKey k2 P) := by
  unfold setlist
  rw [getlist_append, getlist_map_ne h, List.append_nil]

/-! ## C7 — category toggling is an involution -/

lemma filterMap_pyInt_map_pyStr (l : List Int) :
    (l.map pyStr).filterMap pyInt = l := by
  induction l with
  | nil => rfl
  | cons i rest ih => simp [List.filterMap_cons, pyInt_pyStr, ih]

lemma parseSelectedCats_def (Q : Params) :
    parseSelectedCats Q =
      List.insertionSort (· ≤ ·) ((getlist "category" Q).filterMap pyInt).dedup := rfl

lemma parseSelectedCats_sorted (Q : Params) :
    List.Sorted (· ≤ ·) (parseSelectedCats Q) :=
  List.sorted_insertionSort _ _

lemma parseSelectedCats_nodup (Q : Params) :
    (parseSelectedCats Q).Nodup :=
  ((List.perm_insertionSort _ _).nodup_iff).mpr (List.nodup_dedup _)

lemma toggleSel_nodup {sel : List Int} (hnd : sel.Nodup) (c : Int) :
    (toggleSel sel c).Nodup := by
  unfold toggleSel
  by_cases h : c ∈ sel
  · rw [if_pos h]
    exact hnd.erase c
  · rw [if_neg h]
    exact List.nodup_cons.mpr ⟨h, hnd⟩

/-- The selection parsed back out of a toggle URL is the toggled selection,
in canonical sorted order. -/
lemma parseSelectedCats_toggleParams (P : Params) (c : Int) :
    parseSelectedCats (toggleParams P c) =
      List.insertionSort (· ≤ ·) (toggleSel (parseSelectedCats P) c) := by
  rw [parseSelectedCats_def (toggleParams P c)]
  unfold toggleParams
  rw [getlist_setlist_self, filterMap_pyInt_map_pyStr]
  have hnd : (List.insertionSort (· ≤ ·) (toggleSel (parseSelectedCats P) c)).Nodup :=
    ((List.perm_insertionSort _ _).nodup_iff).mpr
      (toggleSel_nodup (parseSelectedCats_nodup P) c)
  rw [List.dedup_eq_self.mpr hnd]
  exact List.Sorted.insertionSort_eq (List.sorted_insertionSort _ _)

/-- Toggling twice permutes back to the original canonical selection. -/
lemma toggleSel_twice_perm {S : List Int} (hnd : S.Nodup) (c : Int) :
    (toggleSel (List.insertionSort (· ≤ ·) (toggleSel S c)) c).Perm S := by
  have hperm1 : (List.insertionSort (· ≤ ·) (toggleSel S c)).Perm (toggleSel S c) :=
    List.perm_insertionSort _ _
  by_cases h : c ∈ S
  · have h1 : toggleSel S c = S.erase c := if_pos h
    have hcnot : c ∉ List.insertionSort (· ≤ ·) (toggleSel S c) := by
      rw [hperm1.mem_iff, h1]
      exact fun hmem => ((hnd.mem_erase_iff).mp hmem).1 rfl
    rw [toggleSel, if_neg hcnot]
    have hstep : (c :: List.insertionSort (· ≤ ·) (toggleSel S c)).Perm (c :: S.erase c) := by
      rw [← h1]
      exact hperm1.cons c
    exact hstep.trans (List.perm_cons_erase h).symm
  · have h1 : toggleSel S c = c :: S := if_neg h
    have hcmem : c ∈ List.insertionSort (· ≤ ·) (toggleSel S c) := by
      rw [hperm1.mem_iff, h1]
      exact List.mem_cons_self c S
    rw [toggleSel, if_pos hcmem]
    have hstep : ((List.insertionSort (· ≤ ·) (toggleSel S c)).erase c).Perm
        ((c :: S).erase c) := by
      rw [← h1]
      exact hperm1.erase c
    rw [List.erase_cons_head c S] at hstep
    exact hstep

lemma getlist_toggleParams_ne {k : String} (P : Params) (c : Int)
    (hc : k ≠ "category") (hp : k ≠ "page") :
    getlist k (toggleParams P c) = getlist k P := by
  unfold toggleParams
  rw [getlist_setlist_ne hc, getlist_popKey_ne _ hc, getlist_popKey_ne _ hp]

/-- C7: toggling the same category id twice through
`build_toggle_major_url` returns to the original selected-category set,
and every query parameter other than `category` (and the deliberately
dropped `page`) is preserved. -/
theorem toggle_major_involution (P : Params) (c : Int) :
    parseSelectedCats (toggleParams (toggleParams P c) c) = parseSelectedCats P ∧
    ∀ k, k ≠ "category" → k ≠ "page" →
      getlist k (toggleParams (toggleParams P c) c) = getlist k P := by
  constructor
  · rw [parseSelectedCats_toggleParams (toggleParams P c) c,
      parseSelectedCats_toggleParams P c]
    exact List.eq_of_perm_of_sorted
      ((List.perm_insertionSort _ _).trans
        (toggleSel_twice_perm (parseSelectedCats_nodup P) c))
      (List.sorted_insertionSort _ _) (parseSelectedCats_sorted P)
  · intro k hc hp
    rw [getlist_toggleParams_ne _ _ hc hp, getlist_toggleParams_ne _ _ hc hp]

/-- C7 witness: a concrete request with one selected category and a region
filter; toggling category 5 twice restores the selection and keeps the
region parameter. -/
theorem toggle_major_involution_witness :
    parseSelectedCats
        (toggleParams (toggleParams [("region", "Riyadh"), ("category", "2")] 5) 5) =
      parseSelectedCats [("region", "Riyadh"), ("category", "2")] ∧
    getlist "region"
        (toggleParams (toggleParams [("region", "Riyadh"), ("category", "2")] 5) 5) =
      getlist "region" [("region", "Riyadh"), ("category", "2")] :=
  ⟨(toggle_major_involution [("region", "Riyadh"), ("category", "2")] 5).1,
   (toggle_major_involution [("region", "Riyadh"), ("category", "2")] 5).2 "region"
     (by decide) (by decide)⟩

/-! ## View projections and filter lemmas -/

lemma selectedCategoryIds_eq (store : List Opportunity) (P : Params) :
    (opportunities store P).selectedCategoryIds = parseSelectedCats P := rfl

lemma categoryCount_eq (store : List Opportunity) (P : Params) :
    (opportunities store P).categoryCount = majorCounts (orderOpps store) := rfl

lemma locationCount_eq (store : List Opportunity) (P : Params) :
    (opportunities store P).locationCount =
      locCounts (applyCategoryFilter (parseSelectedCats P) (orderOpps store)) := rfl

lemma selectedRegion_eq (store : List Opportunity) (P : Params) :
    (opportunities store P).selectedRegion =
      (validateLoc (stripOrNone (getParam "region" P)) (stripOrNone (getParam "city" P))).1 := rfl

lemma selectedCity_eq (store : List Opportunity) (P : Params) :
    (opportunities store P).selectedCity =
      (validateLoc (stripOrNone (getParam "region" P)) (stripOrNone (getParam "city" P))).2 := rfl

lemma filteredOpps_eq (store : List Opportunity) (P : Params) :
    (opportunities store P).filteredOpps =
      applyLocationFilter
        (validateLoc (stripOrNone (getParam "region" P)) (stripOrNone (getParam "city" P))).1
        (validateLoc (stripOrNone (getParam "region" P)) (stripOrNone (getParam "city" P))).2
        (applyCategoryFilter (parseSelectedCats P) (orderOpps store)) := rfl

lemma mem_orderOpps {o : Opportunity} {l : List Opportunity} :
    o ∈ orderOpps l ↔ o ∈ l :=
  (List.perm_insertionSort _ l).mem_iff

lemma mem_applyCategoryFilter {sel : List Int} {opps : List Opportunity} {o : Opportunity} :
    o ∈ applyCategoryFilter sel opps ↔ o ∈ opps ∧ (sel = [] ∨ o.categoryId ∈ sel) := by
  unfold applyCategoryFilter
  by_cases h : sel = []
  · simp [h]
  · simp [h, List.mem_filter]

lemma validateLoc_none (c : Option String) : validateLoc none c = (none, c) := by
  unfold validateLoc
  cases c <;> rfl

lemma applyLocationFilter_none (c : Option String) (opps : List Opportunity) :
    applyLocationFilter none c opps = opps := by
  cases c <;> rfl

lemma iexact_self (a : String) : iexact a a = true := by
  simp [iexact]

/-! ## C3 — category filtering is exact -/

/-- C3: for every selected set `S`, the category filter keeps exactly the
opportunities whose category id lies in `S`, and an empty `S` keeps
everything; lifted to the view, when no location filter is active the
final filtered list realises exactly this semantics over the store. -/
theorem category_filter_exact :
    (∀ (sel : List Int) (opps : List Opportunity) (o : Opportunity),
      o ∈ applyCategoryFilter sel opps ↔
        o ∈ opps ∧ (sel = [] ∨ o.categoryId ∈ sel)) ∧
    (∀ (store : List Opportunity) (P : Params) (o : Opportunity),
      getParam "region" P = none →
        (o ∈ (opportunities store P).filteredOpps ↔
          o ∈ store ∧ ((opportunities store P).selectedCategoryIds = [] ∨
            o.categoryId ∈ (opportunities store P).selectedCategoryIds))) := by
  constructor
  · intro sel opps o
    exact mem_applyCategoryFilter
  · intro store P o hr
    have h1 : stripOrNone (getParam "region" P) = none := by
      rw [hr]
      rfl
    rw [filteredOpps_eq, selectedCategoryIds_eq, h1, validateLoc_none]
    rw [applyLocationFilter_none]
    rw [mem_applyCategoryFilter, mem_orderOpps]

/-- C3 witness: one stored opportunity of category 1, request selecting
category 1 and no location. -/
theorem category_filter_exact_witness :
    (⟨1, 1, none, 0⟩ : Opportunity) ∈
        (opportunities [⟨1, 1, none, 0⟩] [("category", "1")]).filteredOpps ↔
      (⟨1, 1, none, 0⟩ : Opportunity) ∈ [(⟨1, 1, none, 0⟩ : Opportunity)] ∧
        ((opportunities [⟨1, 1, none, 0⟩] [("category", "1")]).selectedCategoryIds = [] ∨
          (1 : Int) ∈ (opportunities [⟨1, 1, none, 0⟩] [("category", "1")]).selectedCategoryIds) :=
  category_filter_exact.2 [⟨1, 1, none, 0⟩] [("category", "1")] ⟨1, 1, none, 0⟩ rfl

/-! ## C9 — both location spellings match -/

/-- C9: when a (region, city) pair is selected (hence validated against the
catalog), an opportunity passing the category filter whose stored location
is either `"Region,City"` or `"Region, City"` appears in the filtered
result. -/
theorem location_variant_inclusion (store : List Opportunity) (P : Params)
    (r c : String) (o : Opportunity)
    (hreg : (opportunities store P).selectedRegion = some r)
    (hcity : (opportunities store P).selectedCity = some c)
    (ho : o ∈ store)
    (hcat : parseSelectedCats P = [] ∨ o.categoryId ∈ parseSelectedCats P)
    (hloc : o.location = some (r ++ "," ++ c) ∨ o.location = some (r ++ ", " ++ c)) :
    o ∈ (opportunities store P).filteredOpps := by
  rw [selectedRegion_eq] at hreg
  rw [selectedCity_eq] at hcity
  rw [filteredOpps_eq, hreg, hcity]
  unfold applyLocationFilter
  rw [List.mem_filter]
  refine ⟨mem_applyCategoryFilter.mpr ⟨mem_orderOpps.mpr ho, hcat⟩, ?_⟩
  rcases hloc with h | h <;> rw [h] <;> simp [iexact_self]

/-- C9 witness: both spellings of Riyadh/Riyadh stored; the selected pair
(Riyadh, Riyadh) includes both opportunities in the filtered result. -/
theorem location_variant_inclusion_witness :
    (⟨1, 1, some "Riyadh,Riyadh", 0⟩ : Opportunity) ∈
      (opportunities
        [⟨1, 1, some "Riyadh,Riyadh", 0⟩, ⟨2, 1, some "Riyadh, Riyadh", 0⟩]
        [("region", "Riyadh"), ("city", "Riyadh")]).filteredOpps ∧
    (⟨2, 1, some "Riyadh, Riyadh", 0⟩ : Opportunity) ∈
      (opportunities
        [⟨1, 1, some "Riyadh,Riyadh", 0⟩, ⟨2, 1, some "Riyadh, Riyadh", 0⟩]
        [("region", "Riyadh"), ("city", "Riyadh")]).filteredOpps :=
  ⟨location_variant_inclusion _ _ "Riyadh" "Riyadh" _ (by decide) (by decide)
      (by decide) (by decide) (Or.inl (by decide)),
    location_variant_inclusion _ _ "Riyadh" "Riyadh" _ (by decide) (by decide)
      (by decide) (by decide) (Or.inr (by decide))⟩

/-! ## C2 — signup atomicity -/

/-- C2 counterexample: the claim says that if either half of the signup
write fails, neither record persists.  In the run where `create_user`
succeeds and `Student.objects.create` fails, an error is raised yet the
database is no longer the original one — the credential record persists. -/
theorem signup_atomicity_cex :
    let form : SignupForm :=
      { full_name := "Test User", username := "tester",
        email := "tester@example.com", password1 := "pw123456" }
    let empty : DB := { users := [], students := [] }
    (SignupForm.save form empty true false).1.isSome = true ∧
    (SignupForm.save form empty true false).2 ≠ empty := by
  decide

/-- C2 (amended): signup runs the two INSERTs sequentially with no
transaction.  If the credential INSERT fails nothing persists; if the
profile INSERT fails the already-written credential record persists; on
success both records persist. -/
theorem signup_save_persistence (form : SignupForm) (db : DB) :
    ((SignupForm.save form db false true).2 = db ∧
      (SignupForm.save form db false false).2 = db) ∧
    (SignupForm.save form db true false).1.isSome = true ∧
    (SignupForm.save form db true false).2 =
      { users := db.users ++
          [{ username := form.username, email := form.email, password := form.password1 }]
        students := db.students } ∧
    (SignupForm.save form db true true).1 = none ∧
    (SignupForm.save form db true true).2 =
      { users := db.users ++
          [{ username := form.username, email := form.email, password := form.password1 }]
        students := db.students ++ [{ username := form.username, full_name := form.full_name }] } :=
  ⟨⟨rfl, rfl⟩, rfl, rfl, rfl, rfl⟩

/-! ## C8 — submissions with both submitter references -/

/-- C8 counterexample: a `Submission` carrying both submitter references,
written through the plain `save()` path (`objects.create`), is persisted —
Django's `save` never calls `clean`, so the write is not rejected. -/
theorem submission_both_refs_cex :
    let s : Submission :=
      { opportunityId := 1, submitted_by_student_id := some 1,
        submitted_by_admin_id := some 2, submitted_by_type := none }
    Submission.create [] s ≠ [] ∧ Submission.create [] s = [s] := by
  decide

/-- C8 (amended): a submission with both submitter references set is
rejected only when validation runs (`clean`, via `full_clean` as model
forms do) — the validated write path raises and persists nothing — whereas
a direct `save()` persists the record unchanged. -/
theorem submission_both_refs_validated (db : List Submission) (s : Submission)
    (h1 : s.submitted_by_student_id.isSome = true)
    (h2 : s.submitted_by_admin_id.isSome = true) :
    Submission.validatedCreate db s =
      Except.error "Submission cannot be submitted by both student and admin." ∧
    Submission.create db s = db ++ [s] := by
  have hclean : s.clean =
      Except.error "Submission cannot be submitted by both student and admin." := by
    unfold Submission.clean
    rw [h1, h2]
    rfl
  have hderive : s.saveDerive = s := by
    unfold Submission.saveDerive
    rw [h1, h2]
    rfl
  constructor
  · unfold Submission.validatedCreate
    rw [hclean]
  · unfold Submission.create
    rw [hderive]

/-- C8 witness: the amended theorem evaluated at a concrete submission
carrying both references. -/
theorem submission_both_refs_validated_witness :
    Submission.validatedCreate []
      { opportunityId := 1, submitted_by_student_id := some 1,
        submitted_by_admin_id := some 2, submitted_by_type := none } =
      Except.error "Submission cannot be submitted by both student and admin." ∧
    Submission.create []
      { opportunityId := 1, submitted_by_student_id := some 1,
        submitted_by_admin_id := some 2, submitted_by_type := none } =
      [{ opportunityId := 1, submitted_by_student_id := some 1,
         submitted_by_admin_id := some 2, submitted_by_type := none }] :=
  submission_both_refs_validated [] _ rfl rfl

/-! ## C10 — `submitted_by_type` derivation on save -/

/-- C10 counterexample: after saving a submission with *both* references
set whose stored type is already `student`, `submitted_by_type` equals
`student` although it is not the case that exactly the student reference is
set — the claimed "if and only if" fails. -/
theorem submission_type_iff_cex :
    let s : Submission :=
      { opportunityId := 1, submitted_by_student_id := some 1,
        submitted_by_admin_id := some 2,
        submitted_by_type := some SubmitterType.student }
    s.saveDerive.submitted_by_type = some SubmitterType.student ∧
    ¬(s.saveDerive.submitted_by_student_id.isSome = true ∧
      s.saveDerive.submitted_by_admin_id.isSome = false) := by
  decide

/-- C10 (amended): saving derives `submitted_by_type = student` when
exactly the student reference is set and `admin` when exactly the admin
reference is set; when both or neither reference is set, save leaves the
record (in particular the type field) unchanged — so the forward
implications hold but not the converses. -/
theorem submission_type_derivation (s : Submission) :
    (s.submitted_by_student_id.isSome = true → s.submitted_by_admin_id.isSome = false →
      s.saveDerive.submitted_by_type = some SubmitterType.student) ∧
    (s.submitted_by_admin_id.isSome = true → s.submitted_by_student_id.isSome = false →
      s.saveDerive.submitted_by_type = some SubmitterType.admin) ∧
    (s.submitted_by_student_id.isSome = s.submitted_by_admin_id.isSome →
      s.saveDerive = s) := by
  refine ⟨?_, ?_, ?_⟩
  · intro h1 h2
    simp [Submission.saveDerive, h1, h2]
  · intro h1 h2
    simp [Submission.saveDerive, h1, h2]
  · intro h
    by_cases hb : s.submitted_by_student_id.isSome = true
    · have ha : s.submitted_by_admin_id.isSome = true := by rw [← h]; exact hb
      simp [Submission.saveDerive, hb, ha]
    · have hb' : s.submitted_by_student_id.isSome = false := by simpa using hb
      have ha : s.submitted_by_admin_id.isSome = false := by rw [← h]; exact hb'
      simp [Submission.saveDerive, hb', ha]

/-- C10 witness: the three branches of the amended theorem at concrete
submissions. -/
theorem submission_type_derivation_witness :
    (Submission.saveDerive
        { opportunityId := 1, submitted_by_student_id := some 1,
          submitted_by_admin_id := none, submitted_by_type := none }).submitted_by_type =
      some SubmitterType.student ∧
    (Submission.saveDerive
        { opportunityId := 2, submitted_by_student_id := none,
          submitted_by_admin_id := some 2, submitted_by_type := none }).submitted_by_type =
      some SubmitterType.admin ∧
    Submission.saveDerive
        { opportunityId := 3, submitted_by_student_id := none,
          submitted_by_admin_id := none, submitted_by_type := some SubmitterType.ai } =
      { opportunityId := 3, submitted_by_student_id := none,
        submitted_by_admin_id := none, submitted_by_type := some SubmitterType.ai } :=
  ⟨(submission_type_derivation _).1 rfl rfl,
   (submission_type_derivation _).2.1 rfl rfl,
   (submission_type_derivation _).2.2 rfl⟩

/-! ## C1 — scope of the facet counts -/

lemma majorCounts_orderOpps (store : List Opportunity) (cid : Int) :
    majorCounts (orderOpps store) cid = majorCounts store cid := by
  unfold majorCounts
  exact (((List.perm_insertionSort _ store)).filter _).length_eq

/-- C1 counterexample: two opportunities of category 1 in different cities;
with the location filter (Riyadh, Riyadh) active, the count of category 1
computed with the category filter cleared *and the location filter still
applied* is 1, but the view reports 2 — the code's category counts ignore
the location filter as well. -/
theorem facet_count_cex :
    (opportunities
        [⟨1, 1, some "Riyadh,Riyadh", 0⟩, ⟨2, 1, some "Makkah,Jeddah", 0⟩]
        [("region", "Riyadh"), ("city", "Riyadh")]).selectedRegion = some "Riyadh" ∧
    (opportunities
        [⟨1, 1, some "Riyadh,Riyadh", 0⟩, ⟨2, 1, some "Makkah,Jeddah", 0⟩]
        [("region", "Riyadh"), ("city", "Riyadh")]).categoryCount 1 = 2 ∧
    majorCounts
      (applyLocationFilter (some "Riyadh") (some "Riyadh")
        (orderOpps [⟨1, 1, some "Riyadh,Riyadh", 0⟩, ⟨2, 1, some "Makkah,Jeddah", 0⟩])) 1 = 1 := by
  decide

/-- C1 (amended): the category facet counts are computed over the whole
store — they ignore the category filter *and* the location filter — and
are therefore invariant to the entire request; the (region, city) facet
counts are computed with the category filter applied and the location
filter cleared. -/
theorem facet_count_scope (store : List Opportunity) (P : Params) :
    (∀ cid, (opportunities store P).categoryCount cid = majorCounts store cid) ∧
    (opportunities store P).locationCount =
      locCounts (applyCategoryFilter (parseSelectedCats P) (orderOpps store)) ∧
    (∀ P2 : Params, (opportunities store P2).categoryCount =
      (opportunities store P).categoryCount) := by
  refine ⟨?_, ?_, ?_⟩
  · intro cid
    rw [categoryCount_eq]
    exact majorCounts_orderOpps store cid
  · rw [locationCount_eq]
  · intro P2
    rw [categoryCount_eq, categoryCount_eq]

/-! ## C5 — page-parameter handling -/

/-- C5 counterexample: with 6 stored items there are 2 pages; the
out-of-range parameter `"0"` is mapped to the *last* page (2), although the
nearest valid page to 0 is page 1 (distance 1 versus distance 2) — the
code does not clamp to the nearest valid page. -/
theorem page_param_cex :
    pageNumberOf (some "0") (numPages 6) = 2 ∧
    ((0 : Int) - 1).natAbs < ((0 : Int) - 2).natAbs := by
  decide

/-- C5 (amended): the page parameter never causes an error: a missing,
empty or unparsable value yields page 1, a parsed value below 1 or above
the page count yields the *last* page (in particular a request beyond the
last page returns the last page), and an in-range value is used as is. -/
theorem page_param_clamping (count : Nat) (s : String) :
    1 ≤ numPages count ∧
    pageNumberOf none (numPages count) = 1 ∧
    (pyInt s = none → pageNumberOf (some s) (numPages count) = 1) ∧
    (∀ n : Int, pyInt s = some n → n < 1 →
      pageNumberOf (some s) (numPages count) = numPages count) ∧
    (∀ n : Int, pyInt s = some n → (numPages count : Int) < n →
      pageNumberOf (some s) (numPages count) = numPages count) ∧
    (∀ n : Int, pyInt s = some n → 1 ≤ n → n ≤ (numPages count : Int) →
      pageNumberOf (some s) (numPages count) = n.toNat) := by
  have hemp : pyInt "" = none := by decide
  have hnp : 1 ≤ numPages count := by
    unfold numPages
    omega
  have hs : ∀ n : Int, pyInt s = some n → ¬s = "" := by
    intro n hn he
    rw [he, hemp] at hn
    exact Option.noConfusion hn
  have hsome : ∀ np : Nat, pageNumberOf (some s) np = pageNumberOfStr s np := fun _ => rfl
  refine ⟨hnp, rfl, ?_, ?_, ?_, ?_⟩
  · intro h
    rw [hsome]
    unfold pageNumberOfStr
    by_cases he : s = ""
    · rw [if_pos he]
    · rw [if_neg he, h]
      rfl
  · intro n hn hlt
    rw [hsome]
    unfold pageNumberOfStr
    rw [if_neg (hs n hn), hn, pageFromInt_some, if_pos hlt]
  · intro n hn hgt
    rw [hsome]
    unfold pageNumberOfStr
    have h1 : ¬n < 1 := by omega
    rw [if_neg (hs n hn), hn, pageFromInt_some, if_neg h1, if_pos hgt]
  · intro n hn h1 h2
    rw [hsome]
    unfold pageNumberOfStr
    have h1' : ¬n < 1 := by omega
    have h2' : ¬(numPages count : Int) < n := by omega
    rw [if_neg (hs n hn), hn, pageFromInt_some, if_neg h1', if_neg h2']

/-- C5 witness: with 6 items (2 pages), `"abc"` gives page 1, `"99"` is
beyond the last page and gives page 2, `"2"` is in range. -/
theorem page_param_clamping_witness :
    pageNumberOf (some "abc") (numPages 6) = 1 ∧
    pageNumberOf (some "99") (numPages 6) = 2 ∧
    pageNumberOf (some "2") (numPages 6) = 2 := by
  refine ⟨?_, ?_, ?_⟩
  · exact (page_param_clamping 6 "abc").2.2.1 (by decide)
  · exact (page_param_clamping 6 "99").2.2.2.2.1 99 (by decide) (by decide)
  · exact (page_param_clamping 6 "2").2.2.2.2.2 2 (by decide) (by decide) (by decide)

/-! ## C6 — unknown region or mismatched city -/

/-- C6 counterexample: with the unknown region `"Atlantis"` selected, the
toggle URL for category 1 and the pagination querystring still carry
`region=Atlantis` — the parameter is *not* dropped from the output URLs
(only the clear-location URL drops it). -/
theorem unknown_region_url_cex :
    build_toggle_major_url [("region", "Atlantis")] 1 =
      "/opportunities/?region=Atlantis&category=1" ∧
    ("region", "Atlantis") ∈ toggleParams [("region", "Atlantis")] 1 ∧
    extraQsOf [("region", "Atlantis")] = "&region=Atlantis" ∧
    build_clear_location_url [("region", "Atlantis")] = "/opportunities/" := by
  decide

/-- C6 (amended): a region parameter not in the catalog is silently
treated as not selected — region and city both cleared, no location
filtering, no error; a city parameter naming a city outside the (valid)
selected region is likewise silently treated as not selected — the city is
cleared, the region stays selected, and only the region-only (prefix)
filter is applied.  In both cases the raw region parameter is preserved
verbatim in the toggle URLs and the pagination querystring; only the
clear-location URL removes it. -/
theorem unknown_region_treatment (store : List Opportunity) (P : Params) (r : String)
    (hr : stripOrNone (getParam "region" P) = some r) :
    (regionKnown r = false →
      (opportunities store P).selectedRegion = none ∧
      (opportunities store P).selectedCity = none ∧
      (opportunities store P).filteredOpps =
        applyCategoryFilter (parseSelectedCats P) (orderOpps store)) ∧
    (∀ cty, regionKnown r = true →
      stripOrNone (getParam "city" P) = some cty →
      ((regionCities r).getD []).contains cty = false →
      (opportunities store P).selectedRegion = some r ∧
      (opportunities store P).selectedCity = none ∧
      (opportunities store P).filteredOpps =
        applyLocationFilter (some r) none
          (applyCategoryFilter (parseSelectedCats P) (orderOpps store))) ∧
    ∀ c, getlist "region" (toggleParams P c) = getlist "region" P := by
  refine ⟨?_, ?_, ?_⟩
  · intro hunk
    have hval : validateLoc (stripOrNone (getParam "region" P))
        (stripOrNone (getParam "city" P)) = (none, none) := by
      rw [hr]
      simp [validateLoc, hunk]
    refine ⟨?_, ?_, ?_⟩
    · rw [selectedRegion_eq, hval]
    · rw [selectedCity_eq, hval]
    · rw [filteredOpps_eq, hval]
      exact applyLocationFilter_none none _
  · intro cty hknown hcty hmis
    have hval : validateLoc (stripOrNone (getParam "region" P))
        (stripOrNone (getParam "city" P)) = (some r, none) := by
      rw [hr, hcty]
      simp [validateLoc, hknown, hmis]
      simpa using hmis
    refine ⟨?_, ?_, ?_⟩
    · rw [selectedRegion_eq, hval]
    · rw [selectedCity_eq, hval]
    · rw [filteredOpps_eq, hval]
  · intro c
    exact getlist_toggleParams_ne P c (by decide) (by decide)

/-- C6 witness: the amended theorem at the concrete requests
`?region=Atlantis` (unknown region: both selections cleared, list
location-unfiltered, region parameter kept in the toggle URL) and
`?region=Riyadh&city=Jeddah` (Jeddah is a Makkah city, not a Riyadh one:
city cleared, region kept, region-only filter applied). -/
theorem unknown_region_treatment_witness :
    (opportunities [] [("region", "Atlantis")]).selectedRegion = none ∧
    (opportunities [] [("region", "Atlantis")]).selectedCity = none ∧
    (opportunities [] [("region", "Atlantis")]).filteredOpps =
      applyCategoryFilter (parseSelectedCats [("region", "Atlantis")]) (orderOpps []) ∧
    getlist "region" (toggleParams [("region", "Atlantis")] 7) =
      getlist "region" [("region", "Atlantis")] ∧
    (opportunities [] [("region", "Riyadh"), ("city", "Jeddah")]).selectedRegion =
      some "Riyadh" ∧
    (opportunities [] [("region", "Riyadh"), ("city", "Jeddah")]).selectedCity = none ∧
    (opportunities [] [("region", "Riyadh"), ("city", "Jeddah")]).filteredOpps =
      applyLocationFilter (some "Riyadh") none
        (applyCategoryFilter (parseSelectedCats [("region", "Riyadh"), ("city", "Jeddah")])
          (orderOpps [])) := by
  obtain ⟨ha, _, hurl⟩ :=
    unknown_region_treatment [] [("region", "Atlantis")] "Atlantis" (by decide)
  obtain ⟨ha1, ha2, ha3⟩ := ha (by decide)
  obtain ⟨_, hb, _⟩ :=
    unknown_region_treatment [] [("region", "Riyadh"), ("city", "Jeddah")] "Riyadh" (by decide)
  obtain ⟨hb1, hb2, hb3⟩ := hb "Jeddah" (by decide) (by decide) (by decide)
  exact ⟨ha1, ha2, ha3, hurl 7, hb1, hb2, hb3⟩

/-! ## C4 — the compressed page-index list -/

lemma mem_range_one {p n : Nat} : p ∈ List.range' 1 n ↔ 1 ≤ p ∧ p ≤ n := by
  rw [List.mem_range']
  constructor
  · rintro ⟨i, hi, rfl⟩
    omega
  · intro h
    exact ⟨p - 1, by omega, by omega⟩

lemma mem_pagesList {current last p : Nat} :
    p ∈ pagesList current last ↔
      (1 ≤ p ∧ p ≤ last) ∧ (p = 1 ∨ p = last ∨ (current ≤ p + 2 ∧ p ≤ current + 2)) := by
  unfold pagesList
  rw [List.mem_filter, mem_range_one]
  simp only [Bool.or_eq_true, beq_iff_eq, Bool.and_eq_true, decide_eq_true_eq]
  constructor
  · rintro ⟨h1, h2⟩
    exact ⟨h1, by omega⟩
  · rintro ⟨h1, h2⟩
    exact ⟨h1, by omega⟩

lemma pagesList_nodup (current last : Nat) : (pagesList current last).Nodup :=
  (List.nodup_range' 1 last).filter _

lemma pagesList_chain (current last : Nat) :
    List.Chain' (· < ·) (pagesList current last) :=
  ((List.pairwise_lt_range' 1 last).filter _).chain'

lemma buildPageRange_cons_none (p : Nat) (rest : List Nat) :
    buildPageRange none (p :: rest) = some p :: buildPageRange (some p) rest := rfl

lemma buildPageRange_cons_some (q p : Nat) (rest : List Nat) :
    buildPageRange (some q) (p :: rest) =
      (if p - q > 1 then [none, some p] else [some p]) ++ buildPageRange (some p) rest := rfl

lemma count_buildPageRange (x : Nat) :
    ∀ (l : List Nat) (prev : Option Nat),
      (buildPageRange prev l).count (some x) = l.count x := by
  intro l
  induction l with
  | nil =>
    intro prev
    rfl
  | cons p rest ih =>
    intro prev
    cases prev with
    | none =>
      rw [buildPageRange_cons_none]
      simp [List.count_cons, ih]
    | some q =>
      rw [buildPageRange_cons_some]
      by_cases hgap : p - q > 1
      · rw [if_pos hgap]
        simp [List.count_append, List.count_cons, ih]
      · rw [if_neg hgap]
        simp [List.count_append, List.count_cons, ih]

lemma mem_buildPageRange (x : Nat) :
    ∀ (l : List Nat) (prev : Option Nat),
      some x ∈ buildPageRange prev l ↔ x ∈ l := by
  intro l prev
  rw [← List.count_pos_iff, ← List.count_pos_iff, count_buildPageRange]

lemma gapsOk_build :
    ∀ (l : List Nat) (a : Nat), List.Chain' (· < ·) (a :: l) →
      gapsOk (some a :: buildPageRange (some a) l) = true := by
  intro l
  induction l with
  | nil =>
    intro a _
    rfl
  | cons p rest ih =>
    intro a h
    have hap : a < p := (List.chain'_cons.mp h).1
    have hrest : List.Chain' (· < ·) (p :: rest) := (List.chain'_cons.mp h).2
    rw [buildPageRange_cons_some]
    by_cases hgap : p - a > 1
    · rw [if_pos hgap]
      have hlt : a + 1 < p := by omega
      simp only [List.cons_append, List.nil_append, gapsOk, decide_eq_true_eq,
        Bool.and_eq_true]
      exact ⟨hlt, ih p hrest⟩
    · rw [if_neg hgap]
      have heq : p = a + 1 := by omega
      simp only [List.cons_append, List.nil_append, gapsOk, beq_iff_eq,
        Bool.and_eq_true]
      exact ⟨heq, ih p hrest⟩

/-- C4: for every page count `L ≥ 1` and current page `1 ≤ c ≤ L`, the
compressed page-index list contains page 1 and page `L` exactly once each,
contains every page within radius 2 of `c`, contains no page entry outside
`{1, L}` and that window, and is a well-formed alternation in which two
adjacent entries are consecutive pages and a single `none` ellipsis marker
stands between (and only between) entries more than 1 apart. -/
theorem page_range_correct (last current : Nat) (hlast : 1 ≤ last)
    (hc1 : 1 ≤ current) (hc2 : current ≤ last) :
    (pageRange current last).count (some 1) = 1 ∧
    (pageRange current last).count (some last) = 1 ∧
    (∀ p, 1 ≤ p → p ≤ last → current ≤ p + 2 → p ≤ current + 2 →
      some p ∈ pageRange current last) ∧
    (∀ p, some p ∈ pageRange current last →
      1 ≤ p ∧ p ≤ last ∧ (p = 1 ∨ p = last ∨ (current ≤ p + 2 ∧ p ≤ current + 2))) ∧
    gapsOk (pageRange current last) = true := by
  have h1mem : 1 ∈ pagesList current last :=
    mem_pagesList.mpr ⟨⟨le_refl 1, hlast⟩, Or.inl rfl⟩
  have hlmem : last ∈ pagesList current last :=
    mem_pagesList.mpr ⟨⟨hlast, le_refl last⟩, Or.inr (Or.inl rfl)⟩
  refine ⟨?_, ?_, ?_, ?_, ?_⟩
  · rw [pageRange, count_buildPageRange]
    exact List.count_eq_one_of_mem (pagesList_nodup current last) h1mem
  · rw [pageRange, count_buildPageRange]
    exact List.count_eq_one_of_mem (pagesList_nodup current last) hlmem
  · intro p hp1 hp2 hw1 hw2
    rw [pageRange, mem_buildPageRange]
    exact mem_pagesList.mpr ⟨⟨hp1, hp2⟩, Or.inr (Or.inr ⟨hw1, hw2⟩)⟩
  · intro p hp
    rw [pageRange, mem_buildPageRange] at hp
    obtain ⟨⟨h1, h2⟩, h3⟩ := mem_pagesList.mp hp
    exact ⟨h1, h2, h3⟩
  · rw [pageRange]
    cases hpl : pagesList current last with
    | nil =>
      rw [hpl] at h1mem
      exact absurd h1mem (List.not_mem_nil 1)
    | cons q rest =>
      rw [buildPageRange_cons_none]
      apply gapsOk_build
      rw [← hpl]
      exact pagesList_chain current last

/-- C4 witness: ten pages, current page 5 — the index keeps pages 1,
3–7 and 10 with one marker per gap. -/
theorem page_range_correct_witness :
    (pageRange 5 10).count (some 1) = 1 ∧
    (pageRange 5 10).count (some 10) = 1 ∧
    some 7 ∈ pageRange 5 10 ∧
    gapsOk (pageRange 5 10) = true := by
  obtain ⟨h1, h2, h3, h4, h5⟩ := page_range_correct 10 5 (by decide) (by decide) (by decide)
  exact ⟨h1, h2, h3 7 (by decide) (by decide) (by decide) (by decide), h5⟩

end CoopStation
